import Mathlib

/-!
Shallow embedding of `src/hypothesis/extra/numpy.py` (the numpy extras of
hypothesis-python): dtype inference (`from_dtype`), argument checking
(`check_argument`, `order_check`), the array strategy (`ArrayStrategy`,
`arrays`), shape generation (`array_shapes`) and the dtype-family factory
(`dtype_factory`, `unsigned_integer_dtypes`, ...), together with theorems
settling the specification claims about them.

Generator combinators coming from `hypothesis.strategies` (st.integers,
st.lists, st.sampled_from, `.map`, `|`) are not part of the embedded file;
where a claim needs their sampling semantics they are modelled from the
spec's description of the combinator algebra, and each such definition is
marked `Modelled from the spec`.
-/

namespace HypoNumpy

/-- Host-language (Python) exceptions that the embedded code can raise:
`InvalidArgument` (the hypothesis error class raised by `check_argument`),
plus the builtin `TypeError` and `IndexError` that the host raises on a
bad call or a bad `str.format`. -/
inductive PyError where
  | invalidArgument (msg : String)
  | typeError (msg : String)
  | indexError (msg : String)
deriving DecidableEq, Repr

def PyError.isInvalidArgument : PyError → Bool
  | .invalidArgument _ => true
  | _ => false

def PyError.isTypeError : PyError → Bool
  | .typeError _ => true
  | _ => false

/-- Whether an `Except PyError` computation ended in a raised `InvalidArgument`. -/
def raisedInvalidArgument {α : Type} : Except PyError α → Bool
  | .error e => e.isInvalidArgument
  | .ok _ => false

/-- Whether an `Except PyError` computation ended in a raised `TypeError`. -/
def raisedTypeError {α : Type} : Except PyError α → Bool
  | .error e => e.isTypeError
  | .ok _ => false

/-- The character `{` (written via its code point, as it delimits format fields). -/
def lbrace : Char := Char.ofNat 123

/-- The character `}`. -/
def rbrace : Char := Char.ofNat 125

/-- Python `str.format` with auto-numbered fields, on the character list of the
template: each `\x7b\x7d` pair consumes the next positional argument in order;
a field with no argument left raises `IndexError` (Python: "Replacement index N
out of range for positional args tuple"); surplus arguments are ignored. -/
def formatChars : List Char → List String → Except PyError (List Char)
  | [], _ => .ok []
  | [c], _ => .ok [c]
  | c1 :: c2 :: rest, args =>
    if c1 == lbrace && c2 == rbrace then
      match args with
      | [] => .error (.indexError "Replacement index out of range")
      | a :: as => (formatChars rest as).map (fun l => a.data ++ l)
    else
      (formatChars (c2 :: rest) args).map (fun l => c1 :: l)

/-- Python `str.format` returning a `String`. -/
def pyFormat (template : String) (args : List String) : Except PyError String :=
  match formatChars template.data args with
  | .ok l => .ok (String.mk l)
  | .error e => .error e

/-- `check_argument(condition, fail_message, *f_args)` from the source:
if the condition fails, `fail_message.format(*f_args)` is evaluated (a
format error propagates) and its result raised as `InvalidArgument`. -/
def check_argument (condition : Bool) (fail_message : String)
    (f_args : List String) : Except PyError Unit :=
  if condition then .ok ()
  else
    match pyFormat fail_message f_args with
    | .ok msg => .error (.invalidArgument msg)
    | .error e => .error e

/-- `order_check(name, floor, small, large)` from the source. `floor = none`
embeds the Python default path that replaces `None` by `-np.inf`, for which
the comparison `floor > small` is always false. The guard is Python's chained
comparison `floor > small > large`, i.e. `floor > small and small > large`.
When the guard holds, the source calls
`check_argument(u'min_{name} was {}, ...', small, floor, large, name=name,
condition=False)`: the first positional argument binds the parameter
`condition` while the keyword `condition=False` binds it again, so the host
raises `TypeError` before `check_argument` runs. -/
def order_check (name : String) (floor : Option Int) (small large : Int) :
    Except PyError Unit :=
  let guard : Bool :=
    match floor with
    | none => false
    | some f => decide (f > small) && decide (small > large)
  if guard then
    .error (.typeError
      ("check_argument() got multiple values for argument condition in order_check of " ++ name))
  else .ok ()

/-- The numpy dtype kind characters appearing in the source's branches of
`from_dtype` (`b f c S a V u i U`), plus `O` (object), the representative of
every kind that reaches the final `else` branch. -/
inductive NumpyKind where
  | b | f | c | S | a | V | u | i | U | O
deriving DecidableEq, Repr

def NumpyKind.code : NumpyKind → String
  | .b => "b"
  | .f => "f"
  | .c => "c"
  | .S => "S"
  | .a => "a"
  | .V => "V"
  | .u => "u"
  | .i => "i"
  | .U => "U"
  | .O => "O"

/-- A realized numpy dtype: its kind character and its item size in bytes. -/
structure Dtype where
  kind : NumpyKind
  itemsize : Nat
deriving DecidableEq, Repr

instance : ToString Dtype := ⟨fun d => d.kind.code ++ toString d.itemsize⟩

/-- Modelled from the spec: the element-generator combinators that
`from_dtype` composes (`st.booleans`, `st.floats`, `st.complex_numbers`,
`st.binary`, `st.text`, `st.integers(min_value, max_value)` and `.map` with
the dtype's scalar type as conversion function). The generators themselves
live outside the embedded file; only their composition structure is kept. -/
inductive ElemStrategy where
  | booleans
  | floats
  | complex_numbers
  | binary
  | text
  | integers (min_value max_value : Int)
  | mapDtypeType (dtype : Dtype) (base : ElemStrategy)
deriving DecidableEq, Repr

/-- `from_dtype(dtype)` from the source. The integer branches translate the
Python shift expressions by operator precedence: the unsigned bound
`1 << (4 * dtype.itemsize) - 1` parses as `1 << ((4 * itemsize) - 1)`,
i.e. `2 ^ (4 * itemsize - 1)`, and the signed `min_integer`
`-1 << (4 * dtype.itemsize - 1)` is `-(2 ^ (4 * itemsize - 1))` with
`max_value = -min_integer - 1`. Every successful branch is piped through
`result.map(dtype.type)`; the final `else` raises `InvalidArgument` with
the formatted message before any map happens. -/
def from_dtype (dtype : Dtype) : Except PyError ElemStrategy :=
  let result : Except PyError ElemStrategy :=
    match dtype.kind with
    | .b => .ok .booleans
    | .f => .ok .floats
    | .c => .ok .complex_numbers
    | .S => .ok .binary
    | .a => .ok .binary
    | .V => .ok .binary
    | .u => .ok (.integers 0 (2 ^ (4 * dtype.itemsize - 1)))
    | .i => .ok (.integers (-(2 ^ (4 * dtype.itemsize - 1)))
        (2 ^ (4 * dtype.itemsize - 1) - 1))
    | .U => .ok .text
    | .O =>
      .error (match pyFormat "No strategy inference for \x7b\x7d" [toString dtype] with
        | .ok m => .invalidArgument m
        | .error e => e)
  result.map (.mapDtypeType dtype ·)

/-- The numeric effect of `dtype.type` on a host integer: numpy integer
scalar construction wraps modulo the dtype's machine width, two's-complement
for signed kinds. Other kinds leave an integer unchanged (they never receive
one from `from_dtype`'s integer branches). -/
def dtype_cast (d : Dtype) (v : Int) : Int :=
  match d.kind with
  | .u => v % (2 ^ (8 * d.itemsize))
  | .i =>
    let m := v % (2 ^ (8 * d.itemsize))
    if m < 2 ^ (8 * d.itemsize - 1) then m else m - 2 ^ (8 * d.itemsize)
  | _ => v

/-- Modelled from the spec: the set of host integers a composed element
generator can draw. `st.integers(lo, hi)` draws exactly the integers of
`[lo, hi]`; a `.map(dtype.type)` draws the casts of what its base draws;
the non-integer leaf generators draw no integers. -/
def producesInt : ElemStrategy → Int → Prop
  | .integers lo hi, z => lo ≤ z ∧ z ≤ hi
  | .mapDtypeType d base, z => ∃ v, producesInt base v ∧ z = dtype_cast d v
  | _, _ => False

/-- Modelled from the spec: the draw contract of the generator algebra —
`draw(random_input_stream) -> value`, deterministic given the stream. A
strategy is a function from the stream state to a drawn value and the
advanced stream state. -/
structure OpStrategy (σ α : Type) where
  doDraw : σ → α × σ

/-- Modelled from the spec: a dense array value — the shape together with the
row-major flat buffer (numpy's `reshape` of a contiguous buffer attaches the
shape without touching the buffer). -/
structure NDArray (α : Type) where
  shape : List Nat
  flat : List α
deriving DecidableEq, Repr

/-- `ArrayStrategy.__init__` from the source: it stores the element strategy,
the tuple-normalized shape and the dtype (`assert shape` restricts use to
non-empty shapes; `array_size = np.prod(shape)` is recomputed here as
`shape.prod`). -/
structure ArrayStrategy (σ α : Type) where
  element_strategy : OpStrategy σ α
  shape : List Nat
  dtype : Dtype

def ArrayStrategy.array_size {σ α : Type} (s : ArrayStrategy σ α) : Nat :=
  s.shape.prod

/-- The loop of `ArrayStrategy.do_draw`: `n` sequential draws from the element
strategy on the same stream, collected in index order. -/
def drawN {σ α : Type} (es : OpStrategy σ α) : Nat → σ → List α × σ
  | 0, data => ([], data)
  | n + 1, data =>
    let step := es.doDraw data
    let rest := drawN es n step.2
    (step.1 :: rest.1, rest.2)

/-- The stream state after `n` sequential draws. -/
def stateAfter {σ α : Type} (es : OpStrategy σ α) : Nat → σ → σ
  | 0, data => data
  | n + 1, data => stateAfter es n (es.doDraw data).2

/-- `ArrayStrategy.do_draw` from the source: allocate a flat buffer of
`array_size` cells, fill cell `i` with the `i`-th sequential draw from
`element_strategy` on the same stream (`for i in hrange(self.array_size):
result[i] = self.element_strategy.do_draw(data)`), and return the buffer
reshaped row-major to `shape`. The dtype coercion numpy applies when
assigning into `np.empty(dtype=...)` belongs to the array library (an
external collaborator per the spec) and the buffer keeps the drawn
values. -/
def ArrayStrategy.do_draw {σ α : Type} (s : ArrayStrategy σ α) (data : σ) :
    NDArray α × σ :=
  let filled := drawN s.element_strategy s.array_size data
  (⟨s.shape, filled.1⟩, filled.2)

/-- The `shape` argument of `arrays`: a bare int or a tuple. -/
inductive ShapeArg where
  | int (n : Nat)
  | tuple (l : List Nat)
deriving DecidableEq, Repr

/-- Shape normalization in `arrays`: `if isinstance(shape, int): shape =
(shape,)` then `shape = tuple(shape)`. -/
def normShape : ShapeArg → List Nat
  | .int n => [n]
  | .tuple l => l

/-- What a call to `arrays` evaluates to when it does not raise: the element
strategy returned directly, an `ArrayStrategy(shape, dtype, element_strategy)`
(recorded by its constructor arguments), or Python's implicit `None` when
control falls off the end of the function body. -/
inductive ArraysResult where
  | strategy (e : ElemStrategy)
  | arrayStrategy (element_strategy : ElemStrategy) (shape : List Nat) (dtype : Dtype)
  | noneResult
deriving DecidableEq, Repr

/-- `arrays(dtype, shape, elements=None)` from the source. The input dtype is
taken already realized (the source's `np.dtype(dtype)` normalization).
`elements=None` defaults to `from_dtype(dtype)`, whose `InvalidArgument`
propagates. Then: `if not shape: if dtype.kind != u'O': return elements`
(with no inner else — an object-kind empty shape falls through both branches
and the function returns `None`), `else: return ArrayStrategy(...)`. -/
def arrays (dtype : Dtype) (shape : ShapeArg) (elements : Option ElemStrategy) :
    Except PyError ArraysResult :=
  let elemsE : Except PyError ElemStrategy :=
    match elements with
    | none => from_dtype dtype
    | some e => .ok e
  match elemsE with
  | .error e => .error e
  | .ok elems =>
    let shape' := normShape shape
    if shape'.isEmpty then
      if dtype.kind ≠ NumpyKind.O then .ok (.strategy elems)
      else .ok .noneResult
    else .ok (.arrayStrategy elems shape' dtype)

/-- Modelled from the spec: the shape-generator combinators that
`array_shapes` composes — `st.integers(min_side, max_side)`,
`st.lists(elem, min_size, max_size)` and `.map(tuple)`. -/
inductive ShapeStrat where
  | integersS (lo hi : Int)
  | listsS (elem : ShapeStrat) (min_size max_size : Int)
  | mapTuple (g : ShapeStrat)
deriving DecidableEq, Repr

/-- Modelled from the spec: the integers a side generator can draw —
`st.integers(lo, hi)` draws exactly the integers of `[lo, hi]`. -/
def producesSide : ShapeStrat → Int → Prop
  | .integersS lo hi, z => lo ≤ z ∧ z ≤ hi
  | _, _ => False

/-- Modelled from the spec: the tuples a composed shape generator can draw —
`st.lists(elem, min_size, max_size)` draws exactly the lists whose length is
in `[min_size, max_size]` with every element drawable by `elem`, and
`.map(tuple)` converts without changing content. -/
def producesShape : ShapeStrat → List Int → Prop
  | .listsS e lo hi, l =>
    lo ≤ (l.length : Int) ∧ (l.length : Int) ≤ hi ∧ ∀ x ∈ l, producesSide e x
  | .mapTuple g, l => producesShape g l
  | _, _ => False

/-- `array_shapes(min_dims=1, max_dims=3, min_side=1, max_side=10)` from the
source: two `order_check` calls (whose raised errors propagate), then
`st.lists(st.integers(min_side, max_side), min_size=min_dims,
max_size=max_dims).map(tuple)`. -/
def array_shapes (min_dims max_dims min_side max_side : Int) :
    Except PyError ShapeStrat :=
  match order_check "dims" (some 1) min_dims max_dims with
  | .error e => .error e
  | .ok _ =>
    match order_check "side" (some 1) min_side max_side with
    | .error e => .error e
    | .ok _ =>
      .ok (.mapTuple (.listsS (.integersS min_side max_side) min_dims max_dims))

/-- The `sizes` argument of `dtype_factory`: a bare int or a sequence. -/
inductive SizesArg where
  | int (n : Nat)
  | seq (l : List Nat)
deriving DecidableEq, Repr

/-- `if isinstance(sizes, int): sizes = (sizes,)`. -/
def SizesArg.toList : SizesArg → List Nat
  | .int n => [n]
  | .seq l => l

/-- Modelled from the spec: a descriptor-string generator as composed by
`dtype_factory` — `st.sampled_from(sizes).map(template.format)` and the
union combinator `|`. -/
inductive StrStrat where
  | mapped (template : String) (sizes : List Nat)
  | orElse (a b : StrStrat)
deriving DecidableEq, Repr

/-- Modelled from the spec: the descriptor strings (as character lists) a
composed descriptor generator can draw — `sampled_from(sizes)` draws each
member of `sizes`, `.map(template.format)` formats it, and `a | b` draws
from either side. -/
def StrStrat.produces : StrStrat → List Char → Prop
  | .mapped template szs, str =>
    ∃ s ∈ szs, formatChars template.data [toString s] = .ok str
  | .orElse a b, str => a.produces str ∨ b.produces str

/-- The size lists sampled by a descriptor generator (both sides of a union
built by `dtype_factory` carry the same list). -/
def StrStrat.sizesOf : StrStrat → List Nat
  | .mapped _ szs => szs
  | .orElse a _ => a.sizesOf

/-- Python `'\x7b\x7d' in kind` on the kind template. -/
def containsBracePair : List Char → Bool
  | [] => false
  | [_] => false
  | c1 :: c2 :: rest => (c1 == lbrace && c2 == rbrace) || containsBracePair (c2 :: rest)

def valid_endian : List String := ["?", "<", "=", ">"]

/-- The `if valid_sizes is not None:` block of `dtype_factory`: an int
`sizes` is tupled, emptiness (Python truthiness of the tuple) and membership
in `valid_sizes` are checked with `check_argument`, and — the elements being
ints, so the source's `all(isinstance(s, int) for s in sizes)` guard holds —
the sizes are normalized by `sorted(set(s // 8 for s in sizes))`, embedded
as insertion sort of the deduplicated quotients. -/
def factory_sizes (sizes : SizesArg) (valid_sizes : Option (List Nat)) :
    Except PyError (List Nat) :=
  match valid_sizes with
  -- with valid_sizes = None the source passes `sizes` through unchanged;
  -- every caller in this module supplies a valid-widths set, and the
  -- embedding tuples a bare int here only for totality
  | none => .ok sizes.toList
  | some vs =>
    let szs := sizes.toList
    match check_argument (!szs.isEmpty)
        "Dtype must have at least one possible size." [] with
    | .error e => .error e
    | .ok _ =>
      match check_argument (szs.all (vs.contains ·))
          "Invalid sizes: was \x7b\x7d must be an item or sequence in \x7b\x7d"
          [toString szs, toString vs] with
      | .error e => .error e
      | .ok _ => .ok (List.insertionSort (· ≤ ·) (szs.map (· / 8)).dedup)

/-- `dtype_factory(kind, sizes, valid_sizes, endianness)` from the source.
The endianness check passes only `valid_endian` as format argument while the
message has two fields, so a failed condition raises `IndexError` from the
format, not `InvalidArgument`. Then the sizes block runs (`factory_sizes`),
the kind template gets a `\x7b\x7d` field appended if it lacks one, and the
strings are formatted with a `<`/`>` union for `'?'` or with the single
given endianness character. -/
def dtype_factory (kind : String) (sizes : SizesArg)
    (valid_sizes : Option (List Nat)) (endianness : String) :
    Except PyError StrStrat :=
  match check_argument (valid_endian.contains endianness)
      "Unknown endianness: was \x7b\x7d, must be in \x7b\x7d"
      [toString valid_endian] with
  | .error e => .error e
  | .ok _ =>
    match factory_sizes sizes valid_sizes with
    | .error e => .error e
    | .ok szs =>
      let kind' := if containsBracePair kind.data then kind
        else kind ++ "\x7b\x7d"
      if endianness == "?" then
        .ok (.orElse (.mapped ("<" ++ kind') szs) (.mapped (">" ++ kind') szs))
      else
        .ok (.mapped (endianness ++ kind') szs)

/-- `unsigned_integer_dtypes(endianness='?', sizes=(8, 16, 32, 64))`. -/
def unsigned_integer_dtypes (endianness : String) (sizes : SizesArg) :
    Except PyError StrStrat :=
  dtype_factory "u" sizes (some [8, 16, 32, 64]) endianness

/-- `integer_dtypes(endianness='?', sizes=(8, 16, 32, 64))`. -/
def integer_dtypes (endianness : String) (sizes : SizesArg) :
    Except PyError StrStrat :=
  dtype_factory "i" sizes (some [8, 16, 32, 64]) endianness

/-- `floating_dtypes(endianness='?', sizes=(16, 32, 64))`. -/
def floating_dtypes (endianness : String) (sizes : SizesArg) :
    Except PyError StrStrat :=
  dtype_factory "f" sizes (some [16, 32, 64, 96, 128]) endianness

/-- `complex_number_dtypes(endianness='?', sizes=(64, 128))`. -/
def complex_number_dtypes (endianness : String) (sizes : SizesArg) :
    Except PyError StrStrat :=
  dtype_factory "c" sizes (some [64, 128, 192, 256]) endianness

/-- Modelled from the spec: realizing a `<u2`-style descriptor string into a
Type Descriptor — the item size in bytes is the number after the endianness
and kind characters. -/
def parseNatChars : List Char → Nat → Nat
  | [], acc => acc
  | c :: cs, acc => parseNatChars cs (acc * 10 + (c.toNat - 48))

/-- Modelled from the spec: the item size of the descriptor realized from an
`<endian><kind><width-in-bytes>` string. -/
def descriptorItemSize (str : List Char) : Nat :=
  parseNatChars (str.drop 2) 0

/-!  Theorems settling the claims. -/

/-- C10: `order_check` never raises `InvalidArgument` for any inputs — when
its guard `floor > small > large` holds, the `check_argument` call supplies
the parameter `condition` both positionally (as the message string) and by
keyword (`condition=False`), so the only possible failure of `order_check`
is a host-level duplicate-argument `TypeError`, never an Invalid
Configuration error. -/
theorem order_check_never_invalid (name : String) (floor : Option Int)
    (small large : Int) :
    raisedInvalidArgument (order_check name floor small large) = false ∧
    (order_check name floor small large = .ok () ∨
      raisedTypeError (order_check name floor small large) = true) := by
  unfold order_check
  cases floor with
  | none => simp [raisedInvalidArgument]
  | some f =>
    by_cases h : (decide (f > small) && decide (small > large)) = true
    · simp [h, raisedInvalidArgument, raisedTypeError, PyError.isInvalidArgument,
        PyError.isTypeError]
    · simp [h, raisedInvalidArgument]

/-- C3 fails on the code: `array_shapes(min_dims=2, max_dims=1, ...)`,
`array_shapes(..., min_side=5, max_side=2)` and the below-floor
`array_shapes(min_dims=0, max_dims=3, ...)` raise nothing and return the
lists-based generator (the chained guard `1 > small > large` needs the
minimum below the floor AND above the maximum at once), and in the one
reachable failure case (`min_dims=0, max_dims=-1`) the raised error is a
`TypeError`, not `InvalidArgument`. -/
theorem array_shapes_inverted_bounds_return_generator :
    array_shapes 2 1 1 10 = .ok (.mapTuple (.listsS (.integersS 1 10) 2 1)) ∧
    array_shapes 1 3 5 2 = .ok (.mapTuple (.listsS (.integersS 5 2) 1 3)) ∧
    array_shapes 0 3 1 10 = .ok (.mapTuple (.listsS (.integersS 1 10) 0 3)) ∧
    raisedInvalidArgument (array_shapes 2 1 1 10) = false ∧
    raisedInvalidArgument (array_shapes 0 (-1) 1 10) = false ∧
    raisedTypeError (array_shapes 0 (-1) 1 10) = true :=
  ⟨rfl, rfl, rfl, rfl, rfl, rfl⟩

/-- C2 fails on the code: `arrays(object_dtype, shape=())` with an explicit
element strategy falls through both branches of the shape logic and returns
Python's `None` (no generator at all), and with `elements` omitted it raises
`InvalidArgument` from `from_dtype` (no inference for the object kind); in
neither case is an Array Generator producing a 0-dimensional array
returned. -/
theorem arrays_object_zero_dim_no_generator :
    arrays ⟨.O, 8⟩ (.tuple []) (some .booleans) = .ok .noneResult ∧
    arrays ⟨.O, 8⟩ (.tuple []) none =
      .error (.invalidArgument "No strategy inference for O8") :=
  ⟨rfl, rfl⟩

/-- C8 fails on the code: an unrecognized endianness makes the failed
`check_argument` format a message having two replacement fields with only
one positional argument (`valid_endian`; the offending endianness value is
not passed at all), so the host raises `IndexError` from `str.format`, not
`InvalidArgument`. -/
theorem unsigned_dtypes_bad_endianness_index_error :
    unsigned_integer_dtypes "x" (.seq [8, 16, 32, 64]) =
      .error (.indexError "Replacement index out of range") ∧
    raisedInvalidArgument (unsigned_integer_dtypes "x" (.seq [8, 16, 32, 64])) =
      false :=
  ⟨rfl, rfl⟩

/-- C5: for every non-object dtype, `arrays(dtype, shape=())` collapses the
array wrapper and returns the element strategy itself; when `elements` is
omitted that strategy is exactly the one `from_dtype(dtype)` returns. -/
theorem arrays_scalar_collapse (d : Dtype) (sh : ShapeArg)
    (els : Option ElemStrategy) (hk : d.kind ≠ NumpyKind.O)
    (hsh : normShape sh = []) :
    (∀ e, els = some e → arrays d sh els = .ok (.strategy e)) ∧
    (∀ e, els = none → from_dtype d = .ok e →
      arrays d sh els = .ok (.strategy e)) := by
  constructor
  · rintro e rfl
    simp [arrays, hsh, hk]
  · rintro e rfl hfd
    simp [arrays, hfd, hsh, hk]

/-- Witness for C5 at `dtype = i1`, `shape = ()`, with and without an
explicit element strategy. -/
theorem arrays_scalar_collapse_witness :
    arrays ⟨.i, 1⟩ (.tuple []) (some .booleans) = .ok (.strategy .booleans) ∧
    arrays ⟨.i, 1⟩ (.tuple []) none =
      .ok (.strategy (.mapDtypeType ⟨.i, 1⟩ (.integers (-8) 7))) :=
  ⟨(arrays_scalar_collapse ⟨.i, 1⟩ (.tuple []) (some .booleans)
      (by decide) rfl).1 .booleans rfl,
   (arrays_scalar_collapse ⟨.i, 1⟩ (.tuple []) none (by decide) rfl).2
      (.mapDtypeType ⟨.i, 1⟩ (.integers (-8) 7)) rfl rfl⟩

/-- C1: for every integer dtype of item size `s` bytes, every value drawn
from the element generator returned by `from_dtype` lies in the exact
machine range for `s` bytes — `[0, 2^(8s) - 1]` for the unsigned kind and
`[-2^(8s-1), 2^(8s-1) - 1]` for the signed kind (the final
`.map(dtype.type)` cast lands every draw in the machine range, and the
pre-cast bounds `[0, 2^(4s-1)]` resp. `[-2^(4s-1), 2^(4s-1) - 1]` already
lie inside it). -/
theorem from_dtype_integer_range (d : Dtype) (hs : 1 ≤ d.itemsize)
    (strat : ElemStrategy) (hstrat : from_dtype d = .ok strat)
    (z : Int) (hz : producesInt strat z) :
    (d.kind = NumpyKind.u → 0 ≤ z ∧ z ≤ 2 ^ (8 * d.itemsize) - 1) ∧
    (d.kind = NumpyKind.i →
      -(2 ^ (8 * d.itemsize - 1)) ≤ z ∧ z ≤ 2 ^ (8 * d.itemsize - 1) - 1) := by
  obtain ⟨k, s⟩ := d
  dsimp only at hs ⊢
  have hQpos : (0 : Int) < 2 ^ (8 * s) := by positivity
  have hPpos : (0 : Int) < 2 ^ (8 * s - 1) := by positivity
  have hQP : (2 : Int) ^ (8 * s) = 2 ^ (8 * s - 1) * 2 := by
    rw [← pow_succ]
    congr 1
    omega
  cases k with
  | u =>
    simp only [from_dtype, Except.map] at hstrat
    obtain rfl : ElemStrategy.mapDtypeType ⟨.u, s⟩
        (.integers 0 (2 ^ (4 * s - 1))) = strat := by
      exact Except.ok.inj hstrat
    obtain ⟨v, hv, rfl⟩ := hz
    refine ⟨fun _ => ?_, fun h => absurd h (by decide)⟩
    simp only [dtype_cast]
    have h1 := Int.emod_nonneg v (ne_of_gt hQpos)
    have h2 := Int.emod_lt_of_pos v hQpos
    omega
  | i =>
    simp only [from_dtype, Except.map] at hstrat
    obtain rfl : ElemStrategy.mapDtypeType ⟨.i, s⟩
        (.integers (-(2 ^ (4 * s - 1))) (2 ^ (4 * s - 1) - 1)) = strat := by
      exact Except.ok.inj hstrat
    obtain ⟨v, hv, rfl⟩ := hz
    refine ⟨fun h => absurd h (by decide), fun _ => ?_⟩
    simp only [dtype_cast]
    have h1 := Int.emod_nonneg v (ne_of_gt hQpos)
    have h2 := Int.emod_lt_of_pos v hQpos
    by_cases hc : v % 2 ^ (8 * s) < 2 ^ (8 * s - 1)
    · rw [if_pos hc]
      omega
    · rw [if_neg hc]
      omega
  | b =>
    simp only [from_dtype, Except.map] at hstrat
    obtain rfl := Except.ok.inj hstrat
    simp [producesInt] at hz
  | f =>
    simp only [from_dtype, Except.map] at hstrat
    obtain rfl := Except.ok.inj hstrat
    simp [producesInt] at hz
  | c =>
    simp only [from_dtype, Except.map] at hstrat
    obtain rfl := Except.ok.inj hstrat
    simp [producesInt] at hz
  | S =>
    simp only [from_dtype, Except.map] at hstrat
    obtain rfl := Except.ok.inj hstrat
    simp [producesInt] at hz
  | a =>
    simp only [from_dtype, Except.map] at hstrat
    obtain rfl := Except.ok.inj hstrat
    simp [producesInt] at hz
  | V =>
    simp only [from_dtype, Except.map] at hstrat
    obtain rfl := Except.ok.inj hstrat
    simp [producesInt] at hz
  | U =>
    simp only [from_dtype, Except.map] at hstrat
    obtain rfl := Except.ok.inj hstrat
    simp [producesInt] at hz
  | O => simp [from_dtype, Except.map] at hstrat

/-- Witness for C1 at the unsigned 1-byte dtype and the draw `5` (drawn as
`5` by `st.integers(0, 8)` and cast to itself by `uint8`). -/
theorem from_dtype_integer_range_witness :
    (0 : Int) ≤ 5 ∧ (5 : Int) ≤ 2 ^ (8 * 1) - 1 :=
  (from_dtype_integer_range ⟨.u, 1⟩ (by decide)
    (.mapDtypeType ⟨.u, 1⟩ (.integers 0 (2 ^ (4 * 1 - 1)))) rfl 5
    (by refine ⟨5, ⟨?_, ?_⟩, ?_⟩ <;> decide)).1 rfl

theorem drawN_length {σ α : Type} (es : OpStrategy σ α) (n : Nat) (data : σ) :
    (drawN es n data).1.length = n := by
  induction n generalizing data with
  | zero => rfl
  | succ n ih => simp [drawN, ih]

theorem drawN_snd {σ α : Type} (es : OpStrategy σ α) (n : Nat) (data : σ) :
    (drawN es n data).2 = stateAfter es n data := by
  induction n generalizing data with
  | zero => rfl
  | succ n ih => simp [drawN, stateAfter, ih]

theorem drawN_get? {σ α : Type} (es : OpStrategy σ α) (n i : Nat) (data : σ)
    (h : i < n) :
    (drawN es n data).1[i]? = some (es.doDraw (stateAfter es i data)).1 := by
  induction n generalizing data i with
  | zero => omega
  | succ n ih =>
    cases i with
    | zero => simp [drawN, stateAfter]
    | succ i =>
      simpa [drawN, stateAfter] using ih i (es.doDraw data).2 (by omega)

/-- C4: a draw from an Array Generator computes `n = product(shape)`,
performs exactly `n` sequential draws from the element strategy on the same
stream — the `i`-th cell of the flat buffer receiving the `i`-th draw — and
returns that buffer reshaped row-major to `shape`: the drawn value's
dimensionality is `shape`, its element count is `product(shape)`, and the
stream leaves the draw advanced by exactly `n` element draws. -/
theorem array_strategy_draw_spec {σ α : Type} (s : ArrayStrategy σ α)
    (hsh : s.shape ≠ []) (data : σ) :
    (s.do_draw data).1.shape = s.shape ∧
    (s.do_draw data).1.flat.length = s.shape.prod ∧
    (∀ i, i < s.shape.prod →
      (s.do_draw data).1.flat[i]? =
        some (s.element_strategy.doDraw (stateAfter s.element_strategy i data)).1) ∧
    (s.do_draw data).2 = stateAfter s.element_strategy s.shape.prod data := by
  refine ⟨rfl, ?_, ?_, ?_⟩
  · exact drawN_length s.element_strategy s.shape.prod data
  · intro i hi
    exact drawN_get? s.element_strategy s.shape.prod i data hi
  · exact drawN_snd s.element_strategy s.shape.prod data

/-- A deterministic counter stream: the `i`-th draw is `i`. -/
def counterStrategy : OpStrategy Nat Nat := ⟨fun d => (d, d + 1)⟩

/-- An `ArrayStrategy` over the counter stream with shape `(2, 3)`. -/
def sampleArrayStrategy : ArrayStrategy Nat Nat :=
  ⟨counterStrategy, [2, 3], ⟨.i, 1⟩⟩

/-- Witness for C4: on the counter stream with shape `(2, 3)`, the draw has
shape `(2, 3)`, 6 elements, cell 4 holds the 4th sequential draw (namely 4),
and the stream has advanced by 6 draws. -/
theorem array_strategy_draw_spec_witness :
    (sampleArrayStrategy.do_draw 0).1.shape = [2, 3] ∧
    (sampleArrayStrategy.do_draw 0).1.flat.length = 6 ∧
    (sampleArrayStrategy.do_draw 0).1.flat[4]? = some 4 ∧
    (sampleArrayStrategy.do_draw 0).2 = 6 := by
  have h := array_strategy_draw_spec sampleArrayStrategy
    (by simp [sampleArrayStrategy]) 0
  exact ⟨h.1, h.2.1, (h.2.2.1 4 (by decide)).trans rfl, h.2.2.2.trans rfl⟩

/-- C9: for valid bounds `1 ≤ min_dims ≤ max_dims` and
`1 ≤ min_side ≤ max_side`, `array_shapes` returns the
`lists(integers(min_side, max_side), min_dims, max_dims).map(tuple)`
generator, and every shape tuple it can draw has length in
`[min_dims, max_dims]` with every element in `[min_side, max_side]`. -/
theorem array_shapes_bounds (min_dims max_dims min_side max_side : Int)
    (h1 : 1 ≤ min_dims) (h2 : min_dims ≤ max_dims)
    (h3 : 1 ≤ min_side) (h4 : min_side ≤ max_side) :
    array_shapes min_dims max_dims min_side max_side =
      .ok (.mapTuple (.listsS (.integersS min_side max_side) min_dims max_dims)) ∧
    ∀ t, producesShape
        (.mapTuple (.listsS (.integersS min_side max_side) min_dims max_dims)) t →
      min_dims ≤ (t.length : Int) ∧ (t.length : Int) ≤ max_dims ∧
        ∀ x ∈ t, min_side ≤ x ∧ x ≤ max_side := by
  have g1 : ¬ ((1 : Int) > min_dims) := by omega
  have g2 : ¬ ((1 : Int) > min_side) := by omega
  refine ⟨?_, ?_⟩
  · simp [array_shapes, order_check, g1, g2]
  · intro t ht
    exact ht

/-- Witness for C9 at the default bounds `(1, 3, 1, 10)` and the drawn shape
`(2, 3)`. -/
theorem array_shapes_bounds_witness :
    array_shapes 1 3 1 10 =
      .ok (.mapTuple (.listsS (.integersS 1 10) 1 3)) ∧
    ((1 : Int) ≤ (([2, 3] : List Int).length : Int) ∧
      ((([2, 3] : List Int).length : Int) ≤ 3)) := by
  have h := array_shapes_bounds 1 3 1 10 (by norm_num) (by norm_num)
    (by norm_num) (by norm_num)
  have hp : producesShape (.mapTuple (.listsS (.integersS 1 10) 1 3))
      ([2, 3] : List Int) := by
    refine ⟨by norm_num, by norm_num, ?_⟩
    intro x hx
    simp only [List.mem_cons, List.not_mem_nil, or_false] at hx
    rcases hx with rfl | rfl <;> exact ⟨by norm_num, by norm_num⟩
  exact ⟨h.1, (h.2 [2, 3] hp).1, (h.2 [2, 3] hp).2.1⟩

theorem formatChars_cons_ne (c : Char) (rest : List Char) (args : List String)
    (hc : ¬ c = lbrace) :
    formatChars (c :: rest) args = (formatChars rest args).map (fun l => c :: l) := by
  cases rest with
  | nil => cases args <;> simp [formatChars, Except.map]
  | cons c2 r =>
    have hcond : (c == lbrace && c2 == rbrace) = false := by
      simp [hc]
    simp only [formatChars, hcond, Bool.false_eq_true, if_false]

/-- A string generator `sampled_from(szs).map((e + kind).format)` with a
single-character non-brace prefix `e` only produces strings starting with
that character. -/
theorem mapped_produces_head (c : Char) (hc : ¬ c = lbrace) (e : String)
    (he : e.data = [c]) (k : String) (szs : List Nat) (str : List Char)
    (h : StrStrat.produces (.mapped (e ++ k) szs) str) :
    str.take 1 = [c] := by
  obtain ⟨s, _, hfmt⟩ := h
  have hdata : (e ++ k).data = c :: k.data := by
    obtain ⟨le⟩ := e
    obtain ⟨lk⟩ := k
    simp only [String.data] at he
    subst he
    rfl
  rw [hdata, formatChars_cons_ne c k.data [toString s] hc] at hfmt
  cases hres : formatChars k.data [toString s] with
  | error err => rw [hres] at hfmt; exact absurd hfmt (by simp [Except.map])
  | ok t =>
    rw [hres] at hfmt
    simp only [Except.map] at hfmt
    obtain rfl := Except.ok.inj hfmt
    rfl

/-- C7: with a fixed endianness policy `<`, `=` or `>`, every descriptor
string a dtype-family generator produces carries that endianness character
as its first character; with policy `?`, the resulting generator is exactly
the union of the `<`-formatted and the `>`-formatted generators. -/
theorem dtype_factory_endian_spec (kind : String) (sizes : SizesArg)
    (valid_sizes : Option (List Nat)) :
    (∀ e g str, e ∈ (["<", "=", ">"] : List String) →
      dtype_factory kind sizes valid_sizes e = .ok g → g.produces str →
      str.take 1 = e.data) ∧
    (∀ g gl gr str,
      dtype_factory kind sizes valid_sizes "?" = .ok g →
      dtype_factory kind sizes valid_sizes "<" = .ok gl →
      dtype_factory kind sizes valid_sizes ">" = .ok gr →
      (g.produces str ↔ gl.produces str ∨ gr.produces str)) := by
  constructor
  · intro e g str he hfac hprod
    simp only [List.mem_cons, List.not_mem_nil, or_false] at he
    cases hsz : factory_sizes sizes valid_sizes with
    | error err =>
      rcases he with rfl | rfl | rfl
      · simp [dtype_factory, check_argument, valid_endian, hsz] at hfac
      · simp [dtype_factory, check_argument, valid_endian, hsz] at hfac
      · simp [dtype_factory, check_argument, valid_endian, hsz] at hfac
    | ok szs =>
      rcases he with rfl | rfl | rfl
      · simp only [dtype_factory, check_argument, valid_endian, hsz] at hfac
        simp only [show (["?", "<", "=", ">"].contains "<") = true from rfl,
          if_true, show ("<" == "?") = false from rfl, Bool.false_eq_true,
          if_false] at hfac
        obtain rfl := Except.ok.inj hfac
        exact mapped_produces_head '<' (by decide) "<" rfl _ szs str hprod
      · simp only [dtype_factory, check_argument, valid_endian, hsz] at hfac
        simp only [show (["?", "<", "=", ">"].contains "=") = true from rfl,
          if_true, show ("=" == "?") = false from rfl, Bool.false_eq_true,
          if_false] at hfac
        obtain rfl := Except.ok.inj hfac
        exact mapped_produces_head '=' (by decide) "=" rfl _ szs str hprod
      · simp only [dtype_factory, check_argument, valid_endian, hsz] at hfac
        simp only [show (["?", "<", "=", ">"].contains ">") = true from rfl,
          if_true, show (">" == "?") = false from rfl, Bool.false_eq_true,
          if_false] at hfac
        obtain rfl := Except.ok.inj hfac
        exact mapped_produces_head '>' (by decide) ">" rfl _ szs str hprod
  · intro g gl gr str hq hl hr
    cases hsz : factory_sizes sizes valid_sizes with
    | error err =>
      simp [dtype_factory, check_argument, valid_endian, hsz] at hq
    | ok szs =>
      simp only [dtype_factory, check_argument, valid_endian, hsz] at hq hl hr
      simp only [show (["?", "<", "=", ">"].contains "?") = true from rfl,
        show (["?", "<", "=", ">"].contains "<") = true from rfl,
        show (["?", "<", "=", ">"].contains ">") = true from rfl,
        if_true, show ("?" == "?") = true from rfl,
        show ("<" == "?") = false from rfl, show (">" == "?") = false from rfl,
        Bool.false_eq_true, if_false] at hq hl hr
      obtain rfl := Except.ok.inj hq
      obtain rfl := Except.ok.inj hl
      obtain rfl := Except.ok.inj hr
      exact Iff.rfl

/-- Witness for C7 at `kind = u`, `sizes = (8,)`: the produced string `<u1`
starts with `<`, and the `?`-policy generator draws exactly what the union
of the `<` and `>` generators draws. -/
theorem dtype_factory_endian_spec_witness :
    ("<u1".data.take 1 = "<".data) ∧
    ((StrStrat.orElse (.mapped ("<" ++ ("u" ++ "\x7b\x7d")) [1])
        (.mapped (">" ++ ("u" ++ "\x7b\x7d")) [1])).produces "<u1".data ↔
      (StrStrat.mapped ("<" ++ ("u" ++ "\x7b\x7d")) [1]).produces "<u1".data ∨
      (StrStrat.mapped (">" ++ ("u" ++ "\x7b\x7d")) [1]).produces "<u1".data) := by
  have h := dtype_factory_endian_spec "u" (.seq [8]) (some [8, 16, 32, 64])
  refine ⟨?_, ?_⟩
  · exact h.1 "<" (.mapped ("<" ++ ("u" ++ "\x7b\x7d")) [1]) "<u1".data
      (by simp) rfl ⟨1, by simp, rfl⟩
  · exact h.2 _ _ _ "<u1".data rfl rfl rfl

theorem check_argument_of_true (cond : Bool) (h : cond = true)
    (msg : String) (args : List String) :
    check_argument cond msg args = .ok () := by
  subst h
  rfl

/-- When the endianness check passes and the sizes block raises, the raised
error is what `dtype_factory` evaluates to. -/
theorem dtype_factory_error_of_sizes (kind : String) (sizes : SizesArg)
    (vs : Option (List Nat)) (e : String) (err : PyError)
    (he : valid_endian.contains e = true)
    (hsz : factory_sizes sizes vs = .error err) :
    dtype_factory kind sizes vs e = .error err := by
  simp only [dtype_factory, check_argument_of_true _ he, hsz]

/-- An unrecognized endianness makes `dtype_factory` raise `IndexError`
from the message format (two fields, one argument). -/
theorem dtype_factory_bad_endian (kind : String) (sizes : SizesArg)
    (vs : Option (List Nat)) (e : String)
    (he : valid_endian.contains e = false) :
    dtype_factory kind sizes vs e =
      .error (.indexError "Replacement index out of range") := by
  simp only [dtype_factory, he]
  rfl

theorem factory_sizes_empty (vs : List Nat) :
    factory_sizes (.seq []) (some vs) =
      .error (.invalidArgument "Dtype must have at least one possible size.") := rfl

theorem factory_sizes_invalid (vs szs : List Nat) (a : Nat) (rest : List Nat)
    (hcons : szs = a :: rest) (hall : szs.all (vs.contains ·) = false) :
    raisedInvalidArgument (factory_sizes (.seq szs) (some vs)) = true := by
  subst hcons
  simp only [factory_sizes, SizesArg.toList]
  rw [show check_argument (!(a :: rest).isEmpty)
      "Dtype must have at least one possible size." [] = .ok () from rfl]
  rw [show ((a :: rest).all (vs.contains ·)) = false from hall]
  rfl

/-- A successful sizes block returns exactly the sorted deduplicated
byte-size list `sorted(set(s // 8 for s in sizes))`. -/
theorem factory_sizes_ok (sizes : SizesArg) (vs : List Nat) (szs : List Nat)
    (h : factory_sizes sizes (some vs) = .ok szs) :
    szs = List.insertionSort (· ≤ ·) (sizes.toList.map (· / 8)).dedup := by
  simp only [factory_sizes] at h
  cases hc1 : check_argument (!sizes.toList.isEmpty)
      "Dtype must have at least one possible size." [] with
  | error err => rw [hc1] at h; exact absurd h (by simp)
  | ok u =>
    rw [hc1] at h
    cases hc2 : check_argument (sizes.toList.all (vs.contains ·))
        "Invalid sizes: was \x7b\x7d must be an item or sequence in \x7b\x7d"
        [toString sizes.toList, toString vs] with
    | error err => rw [hc2] at h; exact absurd h (by simp)
    | ok u2 =>
      rw [hc2] at h
      exact (Except.ok.inj h).symm

/-- A successful `dtype_factory` samples exactly the sizes the sizes block
returned, whichever shape (fixed endianness or `?`-union) the generator
took. -/
theorem dtype_factory_sizesOf (kind : String) (sizes : SizesArg)
    (vs : Option (List Nat)) (e : String) (g : StrStrat) (szs : List Nat)
    (he : valid_endian.contains e = true)
    (hsz : factory_sizes sizes vs = .ok szs)
    (h : dtype_factory kind sizes vs e = .ok g) :
    g.sizesOf = szs := by
  simp only [dtype_factory, check_argument_of_true _ he, hsz] at h
  by_cases hq : (e == "?") = true
  · rw [if_pos hq] at h
    obtain rfl := Except.ok.inj h
    rfl
  · rw [if_neg hq] at h
    obtain rfl := Except.ok.inj h
    rfl

/-- C6: with a valid-widths set, an empty requested widths collection and a
width outside the valid set both make `dtype_factory` raise
`InvalidArgument`; otherwise the sampled widths are exactly the bit widths
divided by 8, deduplicated and sorted ascending; in particular
`unsigned_integer_dtypes(sizes=(8, 16))` only produces descriptor strings
whose realized item size is 1 or 2 bytes, and
`unsigned_integer_dtypes(sizes=(7,))` raises `InvalidArgument`. -/
theorem dtype_factory_sizes_spec :
    (∀ kind e vs, valid_endian.contains e = true →
      raisedInvalidArgument (dtype_factory kind (.seq []) (some vs) e) = true) ∧
    (∀ kind e vs szs, valid_endian.contains e = true →
      szs.all (vs.contains ·) = false →
      raisedInvalidArgument (dtype_factory kind (.seq szs) (some vs) e) = true) ∧
    (∀ kind sizes vs e g, dtype_factory kind sizes (some vs) e = .ok g →
      g.sizesOf = List.insertionSort (· ≤ ·) (sizes.toList.map (· / 8)).dedup ∧
      g.sizesOf.Sorted (· ≤ ·) ∧ g.sizesOf.Nodup) ∧
    (∀ g str, unsigned_integer_dtypes "?" (.seq [8, 16]) = .ok g →
      g.produces str →
      (str = "<u1".data ∨ str = "<u2".data ∨ str = ">u1".data ∨ str = ">u2".data) ∧
      descriptorItemSize str ∈ ([1, 2] : List Nat)) ∧
    raisedInvalidArgument (unsigned_integer_dtypes "?" (.seq [7])) = true := by
  refine ⟨?_, ?_, ?_, ?_, rfl⟩
  · intro kind e vs he
    rw [dtype_factory_error_of_sizes kind (.seq []) (some vs) e _ he
      (factory_sizes_empty vs)]
    rfl
  · intro kind e vs szs he hall
    cases hszs : szs with
    | nil => rw [hszs] at hall; simp at hall
    | cons a rest =>
      subst hszs
      have hinv := factory_sizes_invalid vs (a :: rest) a rest rfl hall
      cases hfs : factory_sizes (.seq (a :: rest)) (some vs) with
      | ok w => rw [hfs] at hinv; exact absurd hinv (by simp [raisedInvalidArgument])
      | error err =>
        rw [dtype_factory_error_of_sizes kind (.seq (a :: rest)) (some vs) e err he hfs]
        rw [hfs] at hinv
        exact hinv
  · intro kind sizes vs e g h
    cases he : valid_endian.contains e with
    | false =>
      rw [dtype_factory_bad_endian kind sizes (some vs) e he] at h
      exact absurd h (by simp)
    | true =>
      cases hfs : factory_sizes sizes (some vs) with
      | error err =>
        rw [dtype_factory_error_of_sizes kind sizes (some vs) e err he hfs] at h
        exact absurd h (by simp)
      | ok szs =>
        have h1 := dtype_factory_sizesOf kind sizes (some vs) e g szs he hfs h
        have h2 := factory_sizes_ok sizes vs szs hfs
        subst h2
        refine ⟨h1, ?_, ?_⟩
        · rw [h1]
          exact List.sorted_insertionSort _ _
        · rw [h1]
          exact (List.perm_insertionSort _ _).nodup_iff.mpr (List.nodup_dedup _)
  · intro g str hq hprod
    rw [show unsigned_integer_dtypes "?" (.seq [8, 16]) =
        Except.ok (StrStrat.orElse
          (.mapped ("<" ++ ("u" ++ "\x7b\x7d")) [1, 2])
          (.mapped (">" ++ ("u" ++ "\x7b\x7d")) [1, 2])) from rfl] at hq
    obtain rfl := Except.ok.inj hq
    rcases hprod with ⟨s, hs, hfmt⟩ | ⟨s, hs, hfmt⟩ <;>
      simp only [List.mem_cons, List.not_mem_nil, or_false] at hs
    · rcases hs with rfl | rfl
      · rw [show formatChars (("<" ++ ("u" ++ "\x7b\x7d")).data) [toString 1] =
            Except.ok ("<u1".data) from rfl] at hfmt
        obtain rfl := Except.ok.inj hfmt
        exact ⟨Or.inl rfl, by decide⟩
      · rw [show formatChars (("<" ++ ("u" ++ "\x7b\x7d")).data) [toString 2] =
            Except.ok ("<u2".data) from rfl] at hfmt
        obtain rfl := Except.ok.inj hfmt
        exact ⟨Or.inr (Or.inl rfl), by decide⟩
    · rcases hs with rfl | rfl
      · rw [show formatChars ((">" ++ ("u" ++ "\x7b\x7d")).data) [toString 1] =
            Except.ok (">u1".data) from rfl] at hfmt
        obtain rfl := Except.ok.inj hfmt
        exact ⟨Or.inr (Or.inr (Or.inl rfl)), by decide⟩
      · rw [show formatChars ((">" ++ ("u" ++ "\x7b\x7d")).data) [toString 2] =
            Except.ok (">u2".data) from rfl] at hfmt
        obtain rfl := Except.ok.inj hfmt
        exact ⟨Or.inr (Or.inr (Or.inr rfl)), by decide⟩

/-- Witness for C6: an empty widths set and the invalid width 7 each raise
`InvalidArgument`; `(64, 8, 8, 16)` normalizes to the byte sizes `[1, 2, 8]`;
and the produced string `<u2` realizes to item size 2. -/
theorem dtype_factory_sizes_spec_witness :
    raisedInvalidArgument
      (dtype_factory "u" (.seq []) (some [8, 16, 32, 64]) "<") = true ∧
    raisedInvalidArgument
      (dtype_factory "u" (.seq [7]) (some [8, 16, 32, 64]) "<") = true ∧
    (StrStrat.mapped ("=" ++ ("u" ++ "\x7b\x7d")) [1, 2, 8]).sizesOf =
      List.insertionSort (· ≤ ·)
        ((SizesArg.seq [64, 8, 8, 16]).toList.map (· / 8)).dedup ∧
    descriptorItemSize "<u2".data ∈ ([1, 2] : List Nat) := by
  have h := dtype_factory_sizes_spec
  refine ⟨h.1 "u" "<" [8, 16, 32, 64] rfl, ?_, ?_, ?_⟩
  · exact h.2.1 "u" "<" [8, 16, 32, 64] [7] rfl rfl
  · exact (h.2.2.1 "u" (.seq [64, 8, 8, 16]) [8, 16, 32, 64] "="
      (.mapped ("=" ++ ("u" ++ "\x7b\x7d")) [1, 2, 8]) rfl).1
  · exact (h.2.2.2.1 (.orElse (.mapped ("<" ++ ("u" ++ "\x7b\x7d")) [1, 2])
      (.mapped (">" ++ ("u" ++ "\x7b\x7d")) [1, 2])) "<u2".data rfl
      (Or.inl ⟨2, by simp, rfl⟩)).2

end HypoNumpy
